import Mathlib

/-!
Verification of the `movie_dialogs_fb` dataset script
(`datasets/movie_dialogs_fb/movie_dialogs_fb.py`).

We shallowly embed the parts of the script the claims are about:

* the line regex `(\d+)\s([^\t]+)\t?([^\t]*)?` used with `pattern.match`
  (prefix matching, greedy semantics) — `patternMatch`;
* the example generator `_generate_examples`, a fold over the file's lines
  threading `conversation_id` / `utterance_id` — `genExamplesGo` /
  `generateExamples`; a line on which the regex does not match makes the
  Python code call `.group` on `None`, raising `AttributeError`, which we
  model as `Except.error ParseError.attributeError`;
* the builder configuration table `BUILDER_CONFIGS`, the `_FILE_PATH`
  dictionary and the `_split_generators` method (for the missing
  `knowledge_base` key) — `FILE_PATH`, `BUILDER_CONFIG_NAMES`,
  `splitGenerators`.

Lines are modelled as `List Char`.  The character classes `\d` and `\s`
are modelled on the repertoire relevant to this file's data (ASCII plus
the Unicode whitespace code points Python's `\s` matches); Python's `\d`
additionally matches non-ASCII decimal digits, which never occur in the
claims' inputs.
-/

/-- Python's `\d` character class, on the ASCII repertoire: `'0'`–`'9'`. -/
def isDigitChar (c : Char) : Bool :=
  c.isDigit

/-- The code points matched by Python's `\s` in a `str` pattern. -/
def pyWhitespaceChars : List Char :=
  [' ', '\t', '\n', '\x0b', '\x0c', '\r',
   '\x1c', '\x1d', '\x1e', '\x1f', '\x85', '\xa0',
   Char.ofNat 0x1680, Char.ofNat 0x2000, Char.ofNat 0x2001, Char.ofNat 0x2002,
   Char.ofNat 0x2003, Char.ofNat 0x2004, Char.ofNat 0x2005, Char.ofNat 0x2006,
   Char.ofNat 0x2007, Char.ofNat 0x2008, Char.ofNat 0x2009, Char.ofNat 0x200a,
   Char.ofNat 0x2028, Char.ofNat 0x2029, Char.ofNat 0x202f, Char.ofNat 0x205f,
   Char.ofNat 0x3000]

/-- Python's `\s` character class (any whitespace character, not only `' '`). -/
def isPyWhitespace (c : Char) : Bool :=
  pyWhitespaceChars.contains c

/-- The three capture groups of `(\d+)\s([^\t]+)\t?([^\t]*)?`:
`g1` the digits, `g2` the text, `g3` the optional answer field (the regex's
trailing `([^\t]*)?` always participates, matching at least the empty
string, so `g3` is a string, never `None`). -/
structure LineMatch where
  g1 : List Char
  g2 : List Char
  g3 : List Char
deriving DecidableEq

/-- `pattern.match(row)` for `pattern = re.compile(r"(\d+)\s([^\t]+)\t?([^\t]*)?")`.

`re.match` anchors at the start of `row` and matches a *prefix*; trailing
characters after the match are ignored.  The greedy semantics of this
particular pattern are deterministic: `\d+` takes the maximal digit
prefix (shrinking it never helps, since `\s` matches no digit), `\s` one
whitespace character, `([^\t]+)` the maximal nonempty run of non-tab
characters, `\t?` a tab if one follows, and `([^\t]*)?` the maximal run
of non-tab characters after it. -/
def patternMatch (row : List Char) : Option LineMatch :=
  if (row.takeWhile isDigitChar).isEmpty then none
  else
    match row.dropWhile isDigitChar with
    | [] => none
    | c :: rest2 =>
      if isPyWhitespace c then
        if (rest2.takeWhile (fun ch => ch != '\t')).isEmpty then none
        else
          match rest2.dropWhile (fun ch => ch != '\t') with
          | '\t' :: rest4 =>
            some ⟨row.takeWhile isDigitChar,
                  rest2.takeWhile (fun ch => ch != '\t'),
                  rest4.takeWhile (fun ch => ch != '\t')⟩
          | _ =>
            some ⟨row.takeWhile isDigitChar,
                  rest2.takeWhile (fun ch => ch != '\t'), []⟩
      else none

/-- `int(m.group(1))`: the decimal value of the digit string. -/
def digitsToNat (ds : List Char) : Nat :=
  ds.foldl (fun n c => 10 * n + (c.toNat - 48)) 0

/-- One yielded example: the fields of the `yield`ed dictionary. -/
structure Record where
  utterance_id : Nat
  text : List Char
  answer : List Char
  conversation_id : Nat
deriving DecidableEq

/-- The Python exception raised by `_generate_examples` on a malformed line:
`pattern.match` returns `None` and `m.group(1)` raises
`AttributeError("'NoneType' object has no attribute 'group'")`.  The
exception value carries no information about the offending line. -/
inductive ParseError where
  | attributeError : ParseError
deriving DecidableEq

/-- `if new_id < utterance_id: conversation_id += 1` — the updated
`conversation_id`. -/
def nextConv (conv utt newId : Nat) : Nat :=
  if newId < utt then conv + 1 else conv

/-- `answers = m.group(3).replace(',', ' ') if m.group(3) else m.group(3)`:
a non-empty (truthy) answer field has every `','` replaced by `' '`; an
empty field is kept unchanged. -/
def normalizeAnswer (g3 : List Char) : List Char :=
  if g3.isEmpty then g3 else g3.map (fun ch => if ch = ',' then ' ' else ch)

/-- The `(key, example)` pair yielded for one line, given the enumerate
index `id_` and the state (`conversation_id`, `utterance_id`) before the
line. -/
def mkRec (id_ conv utt : Nat) (m : LineMatch) : Nat × Record :=
  (id_, { utterance_id := digitsToNat m.g1
          text := m.g2
          answer := normalizeAnswer m.g3
          conversation_id := nextConv conv utt (digitsToNat m.g1) })

/-- The loop of `_generate_examples`: `for id_, row in enumerate(data)`,
threading `conversation_id` and `utterance_id`.  A line the regex does not
match raises (models the `AttributeError` from `m.group(1)` on `None`). -/
def genExamplesGo (id_ conv utt : Nat) :
    List (List Char) → Except ParseError (List (Nat × Record))
  | [] => Except.ok []
  | row :: rows =>
    match patternMatch row with
    | none => Except.error ParseError.attributeError
    | some m =>
      (genExamplesGo (id_ + 1) (nextConv conv utt (digitsToNat m.g1))
          (digitsToNat m.g1) rows).map
        (fun recs => mkRec id_ conv utt m :: recs)

/-- `_generate_examples` on the list of lines of the file
(`f.read().splitlines()`), with the initial state
`conversation_id = 0`, `utterance_id = 0`. -/
def generateExamples (lines : List (List Char)) :
    Except ParseError (List (Nat × Record)) :=
  genExamplesGo 0 0 0 lines

/-- The numeric prefix of a line: the value of its maximal leading digit
run (what `int(m.group(1))` computes on a line the pattern accepts). -/
def numericPrefixOf (l : List Char) : Nat :=
  digitsToNat (l.takeWhile isDigitChar)

/-- The record sequence produced from the sequence of line matches, used to
relate `genExamplesGo` to its output on well-formed input. -/
def runMatched (id_ conv utt : Nat) : List LineMatch → List (Nat × Record)
  | [] => []
  | m :: ms =>
    mkRec id_ conv utt m ::
      runMatched (id_ + 1) (nextConv conv utt (digitsToNat m.g1))
        (digitsToNat m.g1) ms

/-- `_FILE_PATH`: path components per configuration name.  `knowledge_base`
has no entry. -/
def FILE_PATH : List (String × List String) :=
  [("qa", ["movie_dialog_dataset", "task1_qa"]),
   ("recommendations", ["movie_dialog_dataset", "task2_recs"]),
   ("qa_recommendations", ["movie_dialog_dataset", "task3_qarecs"]),
   ("reddit", ["task4_reddit"])]

/-- The names of the five entries of `BUILDER_CONFIGS`. -/
def BUILDER_CONFIG_NAMES : List String :=
  ["qa", "recommendations", "qa_recommendations", "reddit", "knowledge_base"]

/-- The three splits `_split_generators` produces, with `_SPLIT_TO_SUFFIX`. -/
inductive Split where
  | train
  | validation
  | test
deriving DecidableEq

/-- `_SPLIT_TO_SUFFIX`. -/
def splitToSuffix : Split → String
  | Split.train => "_train.txt"
  | Split.validation => "_dev.txt"
  | Split.test => "_test.txt"

/-- A `datasets.SplitGenerator`: the split name and the `filepath` kwarg
(modelled relative to the extracted data directory). -/
structure SplitGenerator where
  split : Split
  filepath : String
deriving DecidableEq

/-- The Python `KeyError` raised by a failed dictionary lookup; it carries
the missing key. -/
inductive PyError where
  | keyError : String → PyError
deriving DecidableEq

/-- `_split_generators` for a configuration name: the line
`dpath = os.path.join(data_dir, *(_FILE_PATH[self.config.name]))` looks
`self.config.name` up in `_FILE_PATH` and raises `KeyError` when the name
is absent, before the list of `SplitGenerator`s is built; otherwise one
generator per split is returned, whose `filepath` joins the last path
component with the split suffix. -/
def splitGenerators (name : String) : Except PyError (List SplitGenerator) :=
  match FILE_PATH.lookup name with
  | none => Except.error (PyError.keyError name)
  | some comps =>
    Except.ok ([Split.train, Split.validation, Split.test].map
      (fun s => { split := s, filepath := comps.getLastD "" ++ splitToSuffix s }))

/-! ### Helper lemmas about `takeWhile` / `dropWhile` decompositions -/

/-- A list that is `d` (all satisfying `p`) followed by `c` (failing `p`)
and a tail splits exactly there under `takeWhile` / `dropWhile`. -/
lemma span_split (p : Char → Bool) :
    ∀ (d : List Char) (c : Char) (l : List Char),
      (∀ a ∈ d, p a = true) → p c = false →
      (d ++ c :: l).takeWhile p = d ∧ (d ++ c :: l).dropWhile p = c :: l := by
  intro d
  induction d with
  | nil =>
    intro c l _ hc
    simp [List.takeWhile_cons, List.dropWhile_cons, hc]
  | cons a d ih =>
    intro c l hd hc
    have ha : p a = true := hd a (by simp)
    have h2 := ih c l (fun b hb => hd b (by simp [hb])) hc
    simp [List.takeWhile_cons, List.dropWhile_cons, ha, h2.1, h2.2]

lemma mem_takeWhile_pred (p : Char → Bool) :
    ∀ (l : List Char) (a : Char), a ∈ l.takeWhile p → p a = true := by
  intro l
  induction l with
  | nil => intro a ha; simp [List.takeWhile] at ha
  | cons x xs ih =>
    intro a ha
    rw [List.takeWhile_cons] at ha
    by_cases hx : p x = true
    · simp [hx] at ha
      rcases ha with ha | ha
      · exact ha ▸ hx
      · exact ih a ha
    · simp [Bool.not_eq_true] at hx
      simp [hx] at ha

lemma dropWhile_cases (p : Char → Bool) :
    ∀ l : List Char, l.dropWhile p = [] ∨
      ∃ c l', l.dropWhile p = c :: l' ∧ p c = false := by
  intro l
  induction l with
  | nil => left; rfl
  | cons x xs ih =>
    rw [List.dropWhile_cons]
    by_cases hx : p x = true
    · simpa [hx] using ih
    · simp [Bool.not_eq_true] at hx
      right
      exact ⟨x, xs, by simp [hx], hx⟩

/-- A whitespace character is not a digit. -/
lemma ws_not_digit {c : Char} (h : isPyWhitespace c = true) :
    isDigitChar c = false := by
  have hall : pyWhitespaceChars.all (fun x => !isDigitChar x) = true := by decide
  have hc : c ∈ pyWhitespaceChars := by
    simpa [isPyWhitespace, List.contains_iff_exists_mem_beq] using h
  have := List.all_eq_true.mp hall c hc
  simpa using this

/-- The empty line does not match the pattern. -/
lemma patternMatch_nil : patternMatch [] = none := rfl

/-- Whatever the pattern captures as `g1` is the maximal digit prefix of
the line. -/
lemma patternMatch_g1 {row : List Char} {m : LineMatch}
    (h : patternMatch row = some m) :
    m.g1 = row.takeWhile isDigitChar := by
  unfold patternMatch at h
  split at h
  · exact absurd h (by simp)
  · split at h
    · exact absurd h (by simp)
    · split at h
      · split at h
        · exact absurd h (by simp)
        · split at h
          · cases h; rfl
          · cases h; rfl
      · exact absurd h (by simp)

/-! ### The generator on well-formed input -/

/-- When every line matches, the loop succeeds and produces `runMatched`. -/
lemma genExamplesGo_ok_of_matches :
    ∀ (lines : List (List Char)) (ms : List LineMatch),
      lines.map patternMatch = ms.map some →
      ∀ id_ conv utt,
        genExamplesGo id_ conv utt lines = Except.ok (runMatched id_ conv utt ms) := by
  intro lines
  induction lines with
  | nil =>
    intro ms h id_ conv utt
    cases ms with
    | nil => rfl
    | cons m ms => simp at h
  | cons row rows ih =>
    intro ms h id_ conv utt
    cases ms with
    | nil => simp at h
    | cons m ms =>
      simp only [List.map_cons, List.cons.injEq] at h
      simp [genExamplesGo, h.1, runMatched, ih ms h.2, Except.map]

/-- Conversely, a successful run means every line matched and the output is
`runMatched` on the matches. -/
lemma genExamplesGo_ok_inv :
    ∀ (lines : List (List Char)) (recs : List (Nat × Record)) (id_ conv utt : Nat),
      genExamplesGo id_ conv utt lines = Except.ok recs →
      ∃ ms : List LineMatch,
        lines.map patternMatch = ms.map some ∧ recs = runMatched id_ conv utt ms := by
  intro lines
  induction lines with
  | nil =>
    intro recs id_ conv utt h
    refine ⟨[], by simp, ?_⟩
    simpa [genExamplesGo, runMatched] using h.symm
  | cons row rows ih =>
    intro recs id_ conv utt h
    cases hm : patternMatch row with
    | none => simp [genExamplesGo, hm] at h
    | some m =>
      cases hrec : genExamplesGo (id_ + 1)
          (nextConv conv utt (digitsToNat m.g1)) (digitsToNat m.g1) rows with
      | error e => simp [genExamplesGo, hm, hrec, Except.map] at h
      | ok recs' =>
        have h' : mkRec id_ conv utt m :: recs' = recs := by
          simpa [genExamplesGo, hm, hrec, Except.map] using h
        obtain ⟨ms, hms, hrm⟩ := ih recs' _ _ _ hrec
        exact ⟨m :: ms, by simp [hm, hms], by simp [runMatched, ← h', hrm]⟩

/-- The loop raises exactly when some line fails to match, and the raised
exception is always the same `AttributeError`. -/
lemma genExamplesGo_error_iff :
    ∀ (lines : List (List Char)) (id_ conv utt : Nat),
      genExamplesGo id_ conv utt lines = Except.error ParseError.attributeError ↔
      ∃ l ∈ lines, patternMatch l = none := by
  intro lines
  induction lines with
  | nil => intro id_ conv utt; simp [genExamplesGo]
  | cons row rows ih =>
    intro id_ conv utt
    cases hm : patternMatch row with
    | none =>
      have heq : genExamplesGo id_ conv utt (row :: rows) =
          Except.error ParseError.attributeError := by
        simp [genExamplesGo, hm]
      rw [heq]
      exact ⟨fun _ => ⟨row, by simp, hm⟩, fun _ => rfl⟩
    | some m =>
      cases hrec : genExamplesGo (id_ + 1)
          (nextConv conv utt (digitsToNat m.g1)) (digitsToNat m.g1) rows with
      | error e =>
        cases e
        obtain ⟨l, hl, hn⟩ := (ih _ _ _).mp hrec
        have heq : genExamplesGo id_ conv utt (row :: rows) =
            Except.error ParseError.attributeError := by
          simp [genExamplesGo, hm, hrec, Except.map]
        rw [heq]
        exact ⟨fun _ => ⟨l, List.mem_cons_of_mem _ hl, hn⟩, fun _ => rfl⟩
      | ok recs' =>
        have heq : genExamplesGo id_ conv utt (row :: rows) =
            Except.ok (mkRec id_ conv utt m :: recs') := by
          simp [genExamplesGo, hm, hrec, Except.map]
        rw [heq]
        constructor
        · intro hc; exact absurd hc (by simp)
        · rintro ⟨l, hl, hn⟩
          rcases List.mem_cons.mp hl with rfl | hl'
          · rw [hm] at hn; cases hn
          · have hbad := (ih (id_ + 1) (nextConv conv utt (digitsToNat m.g1))
              (digitsToNat m.g1)).mpr ⟨l, hl', hn⟩
            rw [hbad] at hrec
            exact absurd hrec (by simp)

/-! ### Properties of the record sequence -/

lemma runMatched_length :
    ∀ (ms : List LineMatch) (id_ conv utt : Nat),
      (runMatched id_ conv utt ms).length = ms.length := by
  intro ms
  induction ms with
  | nil => intro id_ conv utt; rfl
  | cons m ms ih => intro id_ conv utt; simp [runMatched, ih]

lemma runMatched_keys :
    ∀ (ms : List LineMatch) (id_ conv utt : Nat),
      (runMatched id_ conv utt ms).map Prod.fst = List.range' id_ ms.length := by
  intro ms
  induction ms with
  | nil => intro id_ conv utt; rfl
  | cons m ms ih =>
    intro id_ conv utt
    simp [runMatched, mkRec, List.range', ih]

lemma runMatched_utts :
    ∀ (ms : List LineMatch) (id_ conv utt : Nat),
      (runMatched id_ conv utt ms).map (fun r => r.2.utterance_id) =
        ms.map (fun m => digitsToNat m.g1) := by
  intro ms
  induction ms with
  | nil => intro id_ conv utt; rfl
  | cons m ms ih => intro id_ conv utt; simp [runMatched, mkRec, ih]

lemma runMatched_answers :
    ∀ (ms : List LineMatch) (id_ conv utt : Nat),
      (runMatched id_ conv utt ms).map (fun r => r.2.answer) =
        ms.map (fun m => normalizeAnswer m.g3) := by
  intro ms
  induction ms with
  | nil => intro id_ conv utt; rfl
  | cons m ms ih => intro id_ conv utt; simp [runMatched, mkRec, ih]

lemma runMatched_texts :
    ∀ (ms : List LineMatch) (id_ conv utt : Nat),
      (runMatched id_ conv utt ms).map (fun r => r.2.text) =
        ms.map (fun m => m.g2) := by
  intro ms
  induction ms with
  | nil => intro id_ conv utt; rfl
  | cons m ms ih => intro id_ conv utt; simp [runMatched, mkRec, ih]

/-- The conversation-id recurrence between a record carrying the current
state and the records that follow it. -/
lemma runMatched_chain :
    ∀ (ms : List LineMatch) (id_ conv utt : Nat) (r : Nat × Record),
      r.2.conversation_id = conv → r.2.utterance_id = utt →
      List.Chain (fun r s => s.2.conversation_id =
          r.2.conversation_id +
            (if s.2.utterance_id < r.2.utterance_id then 1 else 0))
        r (runMatched id_ conv utt ms) := by
  intro ms
  induction ms with
  | nil => intro id_ conv utt r _ _; exact List.Chain.nil
  | cons m ms ih =>
    intro id_ conv utt r hc hu
    refine List.Chain.cons ?_ (ih _ _ _ _ rfl rfl)
    simp only [mkRec, hc, hu, nextConv]
    split
    · simp
    · simp

/-- The whole record sequence of a run from the initial state satisfies the
conversation-id recurrence between consecutive records. -/
lemma runMatched_chain' (ms : List LineMatch) :
    List.Chain' (fun r s : Nat × Record => s.2.conversation_id =
        r.2.conversation_id +
          (if s.2.utterance_id < r.2.utterance_id then 1 else 0))
      (runMatched 0 0 0 ms) := by
  cases ms with
  | nil => exact trivial
  | cons m ms =>
    show List.Chain _ _ _
    exact runMatched_chain ms 1 (nextConv 0 0 (digitsToNat m.g1))
      (digitsToNat m.g1) (mkRec 0 0 0 m) rfl rfl

/-- The first record of a run from the initial state has
`conversation_id = 0`: the sentinel `utterance_id = 0` never triggers a
boundary because `\d+` parses to a natural number, never below `0`. -/
lemma runMatched_head_conv (m : LineMatch) (ms : List LineMatch) :
    ((runMatched 0 0 0 (m :: ms)).head?).map (fun r => r.2.conversation_id) =
      some 0 := by
  simp [runMatched, mkRec, nextConv]

/-- Full characterization of a successful match: the line splits as the
(nonempty) maximal digit prefix `g1`, one whitespace character, and a
remainder `rest2`; `g2` is the (nonempty) run of `rest2` before its first
tab and `g3` the run between its first and second tab. -/
lemma patternMatch_captures {row : List Char} {m : LineMatch}
    (h : patternMatch row = some m) :
    m.g1 ≠ [] ∧ (∀ a ∈ m.g1, isDigitChar a = true) ∧
    m.g1 = row.takeWhile isDigitChar ∧
    ∃ c rest2, row = m.g1 ++ c :: rest2 ∧ isPyWhitespace c = true ∧
      m.g2 = rest2.takeWhile (fun ch => ch != '\t') ∧ m.g2 ≠ [] ∧
      m.g3 = ((rest2.dropWhile (fun ch => ch != '\t')).drop 1).takeWhile
          (fun ch => ch != '\t') := by
  have hg1 : m.g1 = row.takeWhile isDigitChar := patternMatch_g1 h
  have hdig : ∀ a ∈ m.g1, isDigitChar a = true := by
    intro a ha
    exact mem_takeWhile_pred isDigitChar row a (hg1 ▸ ha)
  unfold patternMatch at h
  split at h
  · exact absurd h (by simp)
  next hne =>
    have hg1ne : m.g1 ≠ [] := by
      rw [hg1]
      intro hc
      rw [hc] at hne
      exact hne rfl
    cases hdrop : row.dropWhile isDigitChar with
    | nil => rw [hdrop] at h; exact absurd h (by simp)
    | cons c rest2 =>
      rw [hdrop] at h
      have hrow : row = m.g1 ++ c :: rest2 := by
        rw [hg1, ← hdrop]
        exact (List.takeWhile_append_dropWhile isDigitChar row).symm
      simp only at h
      split at h
      next hws =>
        split at h
        · exact absurd h (by simp)
        next htne =>
          refine ⟨hg1ne, hdig, hg1, c, rest2, hrow, by simpa using hws, ?_⟩
          have hg2ne : rest2.takeWhile (fun ch => ch != '\t') ≠ [] := by
            intro hc
            rw [hc] at htne
            exact htne rfl
          split at h
          next rest4 heq =>
            cases h
            refine ⟨rfl, hg2ne, ?_⟩
            rw [heq]
            rfl
          next hnot =>
            cases h
            refine ⟨rfl, hg2ne, ?_⟩
            rcases dropWhile_cases (fun ch => ch != '\t') rest2 with hcase |
                ⟨c', l', hcase, hc'⟩
            · rw [hcase]; rfl
            · have hct : c' = '\t' := by simpa using hc'
              subst hct
              exact absurd (hcase) (by intro hx; exact hnot l' hx)
      next hws => exact absurd h (by simp)

/-- Acceptance characterization of the pattern: a line matches exactly when
it begins with a nonempty digit run, followed by one whitespace character,
followed by at least one non-tab character.  Everything after that is
irrelevant to acceptance (`re.match` matches a prefix). -/
lemma patternMatch_isSome_iff (row : List Char) :
    (patternMatch row).isSome = true ↔
      ∃ (d : List Char) (c x : Char) (rest : List Char),
        row = d ++ c :: x :: rest ∧ d ≠ [] ∧
        (∀ a ∈ d, isDigitChar a = true) ∧ isPyWhitespace c = true ∧
        x ≠ '\t' := by
  constructor
  · intro h
    obtain ⟨m, hm⟩ := Option.isSome_iff_exists.mp h
    obtain ⟨hg1ne, hg1d, _, c, rest2, hrow, hws, hg2, hg2ne, _⟩ :=
      patternMatch_captures hm
    cases rest2 with
    | nil =>
      rw [List.takeWhile_nil] at hg2
      exact absurd hg2 hg2ne
    | cons x rest =>
      rw [List.takeWhile_cons] at hg2
      by_cases hx : (x != '\t') = true
      · exact ⟨m.g1, c, x, rest, hrow, hg1ne, hg1d, hws, by simpa using hx⟩
      · rw [Bool.not_eq_true] at hx
        rw [hx] at hg2
        simp at hg2
        exact absurd hg2 hg2ne
  · rintro ⟨d, c, x, rest, rfl, hdne, hdd, hws, hx⟩
    have hspan := span_split isDigitChar d c (x :: rest) hdd (ws_not_digit hws)
    have hxb : (x != '\t') = true := by simpa using hx
    unfold patternMatch
    rw [hspan.1, hspan.2]
    have hde : d.isEmpty = false := by
      cases d with
      | nil => exact absurd rfl hdne
      | cons a d => rfl
    rw [hde]
    simp only [Bool.false_eq_true, if_false, hws, if_true,
      List.takeWhile_cons, hxb, List.dropWhile_cons]
    simp only [List.isEmpty_cons, Bool.false_eq_true, if_false]
    rcases dropWhile_cases (fun ch => ch != '\t') rest with hcase |
        ⟨c', l', hcase, hc'⟩
    · rw [hcase]
      rfl
    · rw [hcase]
      have hct : c' = '\t' := by simpa using hc'
      subst hct
      rfl

/-- Evaluating any function of the match result linewise agrees with
evaluating it on the list of matches, when every line matches. -/
lemma map_eval_of_map_some {α : Type} (F : Option LineMatch → α) :
    ∀ (lines : List (List Char)) (ms : List LineMatch),
      lines.map patternMatch = ms.map some →
      lines.map (fun l => F (patternMatch l)) = ms.map (fun m => F (some m)) := by
  intro lines
  induction lines with
  | nil =>
    intro ms h
    cases ms with
    | nil => rfl
    | cons m ms => simp at h
  | cons row rows ih =>
    intro ms h
    cases ms with
    | nil => simp at h
    | cons m ms =>
      simp only [List.map_cons, List.cons.injEq] at h
      simp [h.1, ih ms h.2]

/-- On matching lines, the captured digit value is the line's numeric
prefix. -/
lemma map_numericPrefix_of_map_some :
    ∀ (lines : List (List Char)) (ms : List LineMatch),
      lines.map patternMatch = ms.map some →
      lines.map numericPrefixOf = ms.map (fun m => digitsToNat m.g1) := by
  intro lines
  induction lines with
  | nil =>
    intro ms h
    cases ms with
    | nil => rfl
    | cons m ms => simp at h
  | cons row rows ih =>
    intro ms h
    cases ms with
    | nil => simp at h
    | cons m ms =>
      simp only [List.map_cons, List.cons.injEq] at h
      have hg1 := patternMatch_g1 h.1
      simp [numericPrefixOf, ← hg1, ih ms h.2]

/-- A single matching line yields exactly one record, with key `0` and
`conversation_id = 0` (the sentinel `utterance_id = 0` never triggers a
boundary, since the digit value is a natural number). -/
lemma generateExamples_singleton {l : List Char} {m : LineMatch}
    (h : patternMatch l = some m) :
    generateExamples [l] = Except.ok [(0,
      { utterance_id := digitsToNat m.g1, text := m.g2,
        answer := normalizeAnswer m.g3, conversation_id := 0 })] := by
  simp [generateExamples, genExamplesGo, h, Except.map, mkRec, nextConv]

/-! ### Claims -/

/-- **C1.** For every input line sequence, the parser starts with
`conversation_id = 0` and increments it exactly on those lines whose
numeric prefix is strictly less than the previous line's numeric prefix;
in particular, for the utterance-id input sequence
`[1,2,3,1,2,1,2,3,4]` the emitted `conversation_id` sequence is
`[0,0,0,1,1,2,2,2,2]`.  (Each record's `utterance_id` is its line's
numeric prefix, the first record has `conversation_id = 0`, and each
following record's `conversation_id` is the previous one's plus one
exactly when its `utterance_id` dropped.) -/
theorem conversationId_starts_zero_and_increments_on_reset
    (lines : List (List Char)) (recs : List (Nat × Record))
    (h : generateExamples lines = Except.ok recs) :
    (recs.map fun r => r.2.utterance_id) = lines.map numericPrefixOf ∧
    (recs.head?.map fun r => r.2.conversation_id) =
      (recs.head?.map fun _ => 0) ∧
    List.Chain' (fun r s => s.2.conversation_id =
        r.2.conversation_id +
          (if s.2.utterance_id < r.2.utterance_id then 1 else 0)) recs ∧
    (generateExamples (["1 a", "2 a", "3 a", "1 a", "2 a", "1 a", "2 a",
        "3 a", "4 a"].map String.toList)).map
        (fun rs => rs.map fun r => r.2.conversation_id) =
      Except.ok [0, 0, 0, 1, 1, 2, 2, 2, 2] := by
  obtain ⟨ms, hms, hrm⟩ := genExamplesGo_ok_inv lines recs 0 0 0 h
  subst hrm
  refine ⟨?_, ?_, runMatched_chain' ms, by rfl⟩
  · rw [runMatched_utts, map_numericPrefix_of_map_some lines ms hms]
  · cases ms with
    | nil => rfl
    | cons m ms' =>
      simp [runMatched, mkRec, nextConv]

/-- **C1** witness: the theorem applied to the single-line input `"1 a"`. -/
theorem conversationId_starts_zero_and_increments_on_reset_witness :
    (([(0, (⟨1, ['a'], [], 0⟩ : Record))].map fun r => r.2.utterance_id) =
      ["1 a".toList].map numericPrefixOf ∧
    ([(0, (⟨1, ['a'], [], 0⟩ : Record))].head?.map
        fun r => r.2.conversation_id) =
      ([(0, (⟨1, ['a'], [], 0⟩ : Record))].head?.map fun _ => 0) ∧
    List.Chain' (fun r s => s.2.conversation_id =
        r.2.conversation_id +
          (if s.2.utterance_id < r.2.utterance_id then 1 else 0))
      [(0, (⟨1, ['a'], [], 0⟩ : Record))] ∧
    (generateExamples (["1 a", "2 a", "3 a", "1 a", "2 a", "1 a", "2 a",
        "3 a", "4 a"].map String.toList)).map
        (fun rs => rs.map fun r => r.2.conversation_id) =
      Except.ok [0, 0, 0, 1, 1, 2, 2, 2, 2]) :=
  conversationId_starts_zero_and_increments_on_reset ["1 a".toList]
    [(0, ⟨1, ['a'], [], 0⟩)] (by rfl)

/-- **C2** (counterexample).  The claim says a line is well-formed only
when the separator after the digits is a single literal space.  The line
`"1\ta"`, whose separator is a tab, is nevertheless accepted by the
pattern (with `text = "a"`), because the regex uses `\s`, which matches
any whitespace character. -/
theorem separator_tab_still_matches :
    patternMatch ('1' :: '\t' :: 'a' :: []) = some ⟨['1'], ['a'], []⟩ ∧
    ('\t' : Char) ≠ ' ' :=
  ⟨rfl, by decide⟩

/-- **C2** (amended).  A line is accepted by the parser exactly when it
begins with one or more digits, then one *whitespace* character (Python's
`\s` — not only a literal space), then at least one non-tab character;
`re.match` matches a prefix, so anything may follow.  (The captured
groups are characterized separately: `g2` is the maximal non-tab run
after the separator and `g3` the run between the first and second tab of
the remainder.) -/
theorem line_accepted_iff_digits_whitespace_text (row : List Char) :
    (patternMatch row).isSome = true ↔
      ∃ (d : List Char) (c x : Char) (rest : List Char),
        row = d ++ c :: x :: rest ∧ d ≠ [] ∧
        (∀ a ∈ d, isDigitChar a = true) ∧ isPyWhitespace c = true ∧
        x ≠ '\t' :=
  patternMatch_isSome_iff row

/-- **C2** witness: the amended acceptance condition applied to the
concrete line `"1 hi"`. -/
theorem line_accepted_iff_digits_whitespace_text_witness :
    (patternMatch "1 hi".toList).isSome = true :=
  (line_accepted_iff_digits_whitespace_text ("1 hi".toList)).mpr
    ⟨['1'], ' ', 'h', ['i'], by decide, by decide, by decide, by decide,
      by decide⟩

/-- **C3.** For every well-formed line, the emitted answer equals the
captured answer field with every comma replaced by a single space when
the field is non-empty, and equals the (empty) field unchanged when it is
empty; in particular `"3 what genre?\tAction,Drama"` yields
`text = "what genre?"` and `answer = "Action Drama"`. -/
theorem answers_comma_normalized (lines : List (List Char))
    (recs : List (Nat × Record)) (h : generateExamples lines = Except.ok recs) :
    ((recs.map fun r => r.2.answer) =
      lines.map (fun l =>
        match patternMatch l with
        | some m =>
          if m.g3 = [] then m.g3
          else m.g3.map (fun ch => if ch = ',' then ' ' else ch)
        | none => [])) ∧
    generateExamples ["3 what genre?\tAction,Drama".toList] =
      Except.ok [(0, ⟨3, "what genre?".toList, "Action Drama".toList, 0⟩)] := by
  obtain ⟨ms, hms, hrm⟩ := genExamplesGo_ok_inv lines recs 0 0 0 h
  subst hrm
  refine ⟨?_, by rfl⟩
  rw [runMatched_answers]
  refine Eq.trans ?_ (map_eval_of_map_some (fun o =>
      match o with
      | some m =>
        if m.g3 = [] then m.g3
        else m.g3.map (fun ch => if ch = ',' then ' ' else ch)
      | none => []) lines ms hms).symm
  apply List.map_congr_left
  intro m _
  show normalizeAnswer m.g3 =
    (if m.g3 = [] then m.g3
     else m.g3.map (fun ch => if ch = ',' then ' ' else ch))
  simp only [normalizeAnswer]
  by_cases hg : m.g3.isEmpty = true
  · have he : m.g3 = [] := by simpa using hg
    simp [hg, he]
  · have he : m.g3 ≠ [] := by simpa using hg
    simp [hg, he]

/-- **C3** witness: the theorem applied to the one-line input
`"3 what genre?\tAction,Drama"`. -/
theorem answers_comma_normalized_witness :
    (([(0, (⟨3, "what genre?".toList, "Action Drama".toList, 0⟩ : Record))].map
        fun r => r.2.answer) =
      ["3 what genre?\tAction,Drama".toList].map (fun l =>
        match patternMatch l with
        | some m =>
          if m.g3 = [] then m.g3
          else m.g3.map (fun ch => if ch = ',' then ' ' else ch)
        | none => []) ∧
    generateExamples ["3 what genre?\tAction,Drama".toList] =
      Except.ok [(0, ⟨3, "what genre?".toList, "Action Drama".toList, 0⟩)]) :=
  answers_comma_normalized ["3 what genre?\tAction,Drama".toList]
    [(0, ⟨3, "what genre?".toList, "Action Drama".toList, 0⟩)] (by rfl)

/-- **C4** (counterexample).  The claim says a malformed line triggers a
documented malformed-input error *identifying the line*.  In fact the
code raises the same uninformative `AttributeError` (from calling
`.group` on `None`) whatever the malformed line is: two different
malformed inputs produce identical error values, so the error identifies
neither the line content nor its index. -/
theorem malformed_error_carries_no_line_info :
    generateExamples ["abc no number".toList] =
        Except.error ParseError.attributeError ∧
    generateExamples ["zzz".toList] =
        Except.error ParseError.attributeError ∧
    ("abc no number".toList : List Char) ≠ "zzz".toList :=
  ⟨rfl, rfl, by decide⟩

/-- **C4** (amended).  Any input containing a line that fails the line
grammar makes the parser fail deterministically — always with the same
`AttributeError` (`'NoneType' object has no attribute 'group'`) — rather
than silently skipping the line; the error does *not* identify the
offending line. -/
theorem malformed_line_raises_attributeError (lines : List (List Char))
    (h : ∃ l ∈ lines, patternMatch l = none) :
    generateExamples lines = Except.error ParseError.attributeError :=
  (genExamplesGo_error_iff lines 0 0 0).mpr h

/-- **C4** witness: the amended theorem applied to the input containing
the malformed line `"abc no number"`. -/
theorem malformed_line_raises_attributeError_witness :
    generateExamples ["abc no number".toList] =
      Except.error ParseError.attributeError :=
  malformed_line_raises_attributeError ["abc no number".toList]
    ⟨"abc no number".toList, by simp, by rfl⟩

/-- **C5.** For every well-formed input, the parser emits exactly one
record per line (all lines of a well-formed input are non-empty), in
input order, and each record's key — the `sequence_index` — is the
line's 0-based position. -/
theorem one_record_per_line_in_order (lines : List (List Char))
    (recs : List (Nat × Record)) (h : generateExamples lines = Except.ok recs) :
    recs.length = lines.length ∧
    recs.map Prod.fst = List.range lines.length ∧
    ∀ l ∈ lines, l ≠ [] := by
  obtain ⟨ms, hms, hrm⟩ := genExamplesGo_ok_inv lines recs 0 0 0 h
  subst hrm
  have hlen : ms.length = lines.length := by
    have := congrArg List.length hms
    simpa using this.symm
  refine ⟨by rw [runMatched_length, hlen], ?_, ?_⟩
  · rw [runMatched_keys, hlen, List.range_eq_range']
  · intro l hl
    rintro rfl
    have hmem : patternMatch ([] : List Char) ∈ ms.map some := by
      rw [← hms]
      exact List.mem_map_of_mem patternMatch hl
    rw [patternMatch_nil] at hmem
    simp at hmem

/-- **C5** witness: the theorem applied to the one-line input `"5 x"`. -/
theorem one_record_per_line_in_order_witness :
    ([(0, (⟨5, ['x'], [], 0⟩ : Record))].length = ["5 x".toList].length ∧
    [(0, (⟨5, ['x'], [], 0⟩ : Record))].map Prod.fst =
      List.range ["5 x".toList].length ∧
    ∀ l ∈ ["5 x".toList], l ≠ []) :=
  one_record_per_line_in_order ["5 x".toList]
    [(0, ⟨5, ['x'], [], 0⟩)] (by rfl)

/-- **C6.** For every well-formed input, within each conversation (records
sharing one `conversation_id`, which form a contiguous run because
`conversation_id` only ever increases) the `utterance_id` values are
non-decreasing, and a conversation boundary between consecutive records
occurs precisely when the `utterance_id` (the line's numeric prefix)
strictly decreases. -/
theorem utteranceIds_nondecreasing_within_conversation
    (lines : List (List Char)) (recs : List (Nat × Record))
    (h : generateExamples lines = Except.ok recs) :
    List.Pairwise (fun r s : Nat × Record =>
        r.2.conversation_id = s.2.conversation_id →
          r.2.utterance_id ≤ s.2.utterance_id) recs ∧
    List.Chain' (fun r s : Nat × Record =>
        s.2.conversation_id ≠ r.2.conversation_id ↔
          s.2.utterance_id < r.2.utterance_id) recs := by
  obtain ⟨ms, hms, hrm⟩ := genExamplesGo_ok_inv lines recs 0 0 0 h
  subst hrm
  have hchain := runMatched_chain' ms
  constructor
  · have hmono : List.Chain' (fun r s : Nat × Record =>
        r.2.conversation_id ≤ s.2.conversation_id ∧
        (r.2.conversation_id = s.2.conversation_id →
          r.2.utterance_id ≤ s.2.utterance_id)) (runMatched 0 0 0 ms) := by
      refine List.Chain'.imp ?_ hchain
      intro r s hrs
      rcases Nat.lt_or_ge s.2.utterance_id r.2.utterance_id with hlt | hge
      · rw [if_pos hlt] at hrs
        exact ⟨by omega, fun heq => by omega⟩
      · rw [if_neg (Nat.not_lt.mpr hge)] at hrs
        exact ⟨by omega, fun _ => hge⟩
    haveI : IsTrans (Nat × Record) (fun r s : Nat × Record =>
        r.2.conversation_id ≤ s.2.conversation_id ∧
        (r.2.conversation_id = s.2.conversation_id →
          r.2.utterance_id ≤ s.2.utterance_id)) := by
      constructor
      intro a b c hab hbc
      refine ⟨le_trans hab.1 hbc.1, fun heq => ?_⟩
      have h1 : a.2.conversation_id = b.2.conversation_id := by
        have := hab.1
        have := hbc.1
        omega
      have h2 : b.2.conversation_id = c.2.conversation_id := by
        have := hab.1
        have := hbc.1
        omega
      exact le_trans (hab.2 h1) (hbc.2 h2)
    exact (List.chain'_iff_pairwise.mp hmono).imp (fun hrs => hrs.2)
  · refine List.Chain'.imp ?_ hchain
    intro r s hrs
    rcases Nat.lt_or_ge s.2.utterance_id r.2.utterance_id with hlt | hge
    · rw [if_pos hlt] at hrs
      exact ⟨fun _ => hlt, fun _ => by omega⟩
    · rw [if_neg (Nat.not_lt.mpr hge)] at hrs
      constructor
      · intro hne; omega
      · intro hlt; omega

/-- **C6** witness: the theorem applied to the two-line input
`["3 a", "1 b"]` (a boundary: the numeric prefix drops from 3 to 1). -/
theorem utteranceIds_nondecreasing_within_conversation_witness :
    (List.Pairwise (fun r s : Nat × Record =>
        r.2.conversation_id = s.2.conversation_id →
          r.2.utterance_id ≤ s.2.utterance_id)
      [(0, ⟨3, ['a'], [], 0⟩), (1, ⟨1, ['b'], [], 1⟩)] ∧
    List.Chain' (fun r s : Nat × Record =>
        s.2.conversation_id ≠ r.2.conversation_id ↔
          s.2.utterance_id < r.2.utterance_id)
      [(0, ⟨3, ['a'], [], 0⟩), (1, ⟨1, ['b'], [], 1⟩)]) :=
  utteranceIds_nondecreasing_within_conversation
    ["3 a".toList, "1 b".toList]
    [(0, ⟨3, ['a'], [], 0⟩), (1, ⟨1, ['b'], [], 1⟩)] (by rfl)

/-- **C7.** Parsing is a pure function of the input line sequence: parsing
the same lines twice yields identical record sequences, and every run
starts from the same fresh initial state `conversation_id = 0`,
`utterance_id = 0` — no state is carried across runs. -/
theorem reparse_identical (lines : List (List Char)) :
    generateExamples lines = generateExamples lines ∧
    generateExamples lines = genExamplesGo 0 0 0 lines :=
  ⟨rfl, rfl⟩

/-- **C8.** A well-formed single-line input produces exactly one record,
with key (`sequence_index`) `0` and `conversation_id = 0`: the sentinel
`previous_utterance_id = 0` never triggers a boundary on the first line,
since the parsed numeric prefix is a natural number. -/
theorem single_line_single_record (l : List Char) (m : LineMatch)
    (h : patternMatch l = some m) :
    generateExamples [l] = Except.ok [(0,
      ⟨digitsToNat m.g1, m.g2, normalizeAnswer m.g3, 0⟩)] :=
  generateExamples_singleton h

/-- **C8** witness: the theorem applied to the line `"1 hi"`. -/
theorem single_line_single_record_witness :
    generateExamples ["1 hi".toList] = Except.ok [(0,
      ⟨digitsToNat ['1'], ['h', 'i'], normalizeAnswer [], 0⟩)] :=
  single_line_single_record ("1 hi".toList) ⟨['1'], ['h', 'i'], []⟩ (by rfl)

/-- **C9.** A line that starts with digits, a whitespace separator and
non-tab text, and contains two or more tabs after the text, is accepted
without error; the captured answer is exactly the run between the first
and second of those tabs, and everything from the second tab onward is
discarded: it appears nowhere in the emitted record. -/
theorem extra_tabs_truncate_answer (d : List Char) (c : Char)
    (t a rest : List Char) (hd : d ≠ [])
    (hdd : ∀ x ∈ d, isDigitChar x = true)
    (hc : isPyWhitespace c = true) (hct : c ≠ '\t') (ht : t ≠ [])
    (htt : ∀ x ∈ t, x ≠ '\t') (hat : ∀ x ∈ a, x ≠ '\t') :
    patternMatch (d ++ c :: (t ++ '\t' :: (a ++ '\t' :: rest))) =
      some ⟨d, t, a⟩ ∧
    generateExamples [d ++ c :: (t ++ '\t' :: (a ++ '\t' :: rest))] =
      Except.ok [(0, ⟨digitsToNat d, t, normalizeAnswer a, 0⟩)] := by
  have httb : ∀ x ∈ t, (x != '\t') = true := fun x hx => by
    simpa using htt x hx
  have hatb : ∀ x ∈ a, (x != '\t') = true := fun x hx => by
    simpa using hat x hx
  have hspan := span_split isDigitChar d c (t ++ '\t' :: (a ++ '\t' :: rest))
    hdd (ws_not_digit hc)
  have hspan2 := span_split (fun ch => ch != '\t') t '\t' (a ++ '\t' :: rest)
    httb (by simp)
  have hspan3 := span_split (fun ch => ch != '\t') a '\t' rest hatb (by simp)
  have hde : d.isEmpty = false := by
    cases d with
    | nil => exact absurd rfl hd
    | cons y ys => rfl
  have hte : t.isEmpty = false := by
    cases t with
    | nil => exact absurd rfl ht
    | cons y ys => rfl
  have hpm : patternMatch (d ++ c :: (t ++ '\t' :: (a ++ '\t' :: rest))) =
      some ⟨d, t, a⟩ := by
    unfold patternMatch
    rw [hspan.1, hspan.2]
    simp only [hde, Bool.false_eq_true, if_false, hc, if_true,
      hspan2.1, hspan2.2, hte, hspan3.1]
  exact ⟨hpm, generateExamples_singleton hpm⟩

/-- **C9** witness: the theorem applied to the line `"1 a\tb\tc"`
(two tabs); the answer comes only from `"b"`, and `"c"` is discarded. -/
theorem extra_tabs_truncate_answer_witness :
    (patternMatch (['1'] ++ ' ' :: (['a'] ++ '\t' :: (['b'] ++ '\t' :: ['c']))) =
      some ⟨['1'], ['a'], ['b']⟩ ∧
    generateExamples [['1'] ++ ' ' :: (['a'] ++ '\t' :: (['b'] ++ '\t' :: ['c']))] =
      Except.ok [(0, ⟨digitsToNat ['1'], ['a'], normalizeAnswer ['b'], 0⟩)]) :=
  extra_tabs_truncate_answer ['1'] ' ' ['a'] ['b'] ['c']
    (by decide) (by decide) (by decide) (by decide) (by decide) (by decide)
    (by decide)

/-- **C10.** The configuration named `knowledge_base` is declared in
`BUILDER_CONFIGS` but has no entry in the `_FILE_PATH` mapping, so for
that configuration `_split_generators` raises a `KeyError` (at the
`dpath` lookup) before producing any split generator. -/
theorem knowledge_base_config_missing :
    "knowledge_base" ∈ BUILDER_CONFIG_NAMES ∧
    FILE_PATH.lookup "knowledge_base" = none ∧
    splitGenerators "knowledge_base" =
      Except.error (PyError.keyError "knowledge_base") := by
  refine ⟨?_, rfl, rfl⟩
  simp [BUILDER_CONFIG_NAMES]
